import Mathlib

/-
  Verification of the CTranslate2 Python binding layer (src/python/translator.cc)
  against its natural-language specification.

  Shallow embedding conventions:
  * Python objects that may be `None` are modelled with `Option`.
  * A Python list of token lists (possibly containing `None` entries) is
    `List (Option (List String))`; a C++ `std::vector<std::vector<std::string>>`
    is `List (List String)`.
  * C++ `float` values carried through unchanged (scores, `length_penalty`,
    `sampling_temperature`, attention weights) are modelled as `Rat`; no claim
    depends on floating-point arithmetic, the values are only passed along.
  * C++ exceptions / Python errors are modelled with `Except TErr`.
  * The source name `target_prefix` is shortened to `tgt` in Lean binders and
    fields; comments note the original name.
  * The `ctranslate2::TranslatorPool` core (post, consume_text_file) and
    `ctranslate2::TranslationOptions` are not part of the repository sources,
    only called from the binding; they are modelled from the spec where noted.
-/

/-- Errors visible at the binding boundary: `std::invalid_argument` raised by
the binding or the pool, and faults from the inference engine. -/
inductive TErr where
  | invalidArgument (msg : String)
  | engineFault (msg : String)
deriving DecidableEq

/-- Modelled from the spec: `ctranslate2::TranslationOptions` (spec section 3,
"Decoding Options") is declared outside the repository sources.  Field names
follow the C++ struct as used by the binding; default values follow the
spec's reading that `return_attention` and `return_alternatives` are optional
result toggles that are off unless requested (the binding also defaults both
to `false`).  The remaining defaults mirror the binding's own defaults; no
claim depends on them since both binding entry points overwrite them. -/
structure TranslationOptions where
  max_batch_size : Nat := 0
  beam_size : Nat := 2
  num_hypotheses : Nat := 1
  length_penalty : Rat := 0
  max_decoding_length : Nat := 250
  min_decoding_length : Nat := 1
  sampling_topk : Nat := 1
  sampling_temperature : Rat := 1
  use_vmap : Bool := false
  return_attention : Bool := false
  return_alternatives : Bool := false
deriving DecidableEq

/-- The default-constructed `TranslationOptions`, as produced by
`ctranslate2::TranslationOptions options;` in the binding. -/
def TranslationOptions.default : TranslationOptions := {}

/-- Modelled from the spec: `ctranslate2::TranslationResult` (spec section 3,
"TranslationResult"/"Hypothesis") as consumed by the binding through the
accessors `hypotheses()`, `scores()`, `attention()`, `num_hypotheses()` and
`has_attention()`. -/
structure TranslationResult where
  hypotheses : List (List String)
  scores : List Rat
  attention : List (List (List Rat))
deriving DecidableEq

/-- `TranslationResult::num_hypotheses()`: the number of stored hypotheses. -/
def TranslationResult.num_hypotheses (r : TranslationResult) : Nat :=
  r.hypotheses.length

/-- `TranslationResult::has_attention()`: whether attention data is present. -/
def TranslationResult.has_attention (r : TranslationResult) : Bool :=
  !r.attention.isEmpty

/-- The opaque inference engine (spec sections 2 and 4.2): given one source
sequence, its target-prefix sequence, and the shared options, a worker either
produces a `TranslationResult` or faults.  Kept abstract as a parameter. -/
abbrev Engine :=
  List String → List String → TranslationOptions → Except TErr TranslationResult

/-- One Python hypothesis dict produced by `translate_batch`:
`{"score": ..., "tokens": ..., "attention": ...?}`. -/
structure PyHyp where
  score : Rat
  tokens : List String
  attention : Option (List (List Rat))
deriving DecidableEq

/-- The per-result conversion loop of `translate_batch` (translator.cc,
the `for (size_t i = 0; i < result.num_hypotheses(); ++i)` loop): one dict per
hypothesis with score, tokens and, when `has_attention()`, the attention rows.
Out-of-range reads (impossible for well-formed results) are totalised with
default values. -/
def result_to_py_list (r : TranslationResult) : List PyHyp :=
  (List.range r.num_hypotheses).map (fun i =>
    { score := r.scores.getD i 0,
      tokens := r.hypotheses.getD i [],
      attention := if r.has_attention then some (r.attention.getD i []) else none })

/-- A Python value as returned by `translate_file`: either a plain integer or
a tuple of integers (only these two shapes occur at this interface;
`py::make_tuple(num_tokens)` builds a tuple of one integer). -/
inductive PyValue where
  | int (n : Nat)
  | tuple (elems : List Nat)
deriving DecidableEq

/-- Body of the conversion loop of `batch_to_vector` (translator.cc):
walk the Python list; a `None` entry becomes an empty sequence when
`optional` is set and otherwise throws
`std::invalid_argument("Invalid None value in input list")`; any other entry
is cast to a token vector.  An exception aborts the whole conversion. -/
def vector_of_list (optional : Bool) :
    List (Option (List String)) → Except TErr (List (List String))
  | [] => .ok []
  | none :: rest =>
    if optional then
      match vector_of_list optional rest with
      | .error e => .error e
      | .ok v => .ok ([] :: v)
    else .error (.invalidArgument "Invalid None value in input list")
  | some s :: rest =>
    match vector_of_list optional rest with
    | .error e => .error e
    | .ok v => .ok (s :: v)

/-- `batch_to_vector` (translator.cc): a Python `None` object converts to an
empty vector; otherwise each entry is converted by `vector_of_list`. -/
def batch_to_vector (l : Option (List (Option (List String)))) (optional : Bool) :
    Except TErr (List (List String)) :=
  match l with
  | none => .ok []
  | some xs => vector_of_list optional xs

/-- Modelled from the spec: the worker loop inside the translator pool
(spec sections 4.1 and 4.2).  `ctranslate2::TranslatorPool` is not under the
repository sources.  Dispatch across workers and ordered reassembly are
collapsed to an in-order run of the engine over the batch, which is the
observable contract (spec section 4.1: output order equals input order
regardless of worker completion order).  Each sequence is paired with its
slice of the target-prefix list (empty when the list is absent/exhausted).
The second component counts engine (worker) invocations; a fault aborts the
request with no partial result list (spec section 4.1, error conditions). -/
def TranslatorPool.runWorkers (engine : Engine) (opts : TranslationOptions) :
    List (List String) → List (List String) →
      Except TErr (List TranslationResult) × Nat
  | [], _ => (.ok [], 0)
  | s :: rest, tgt =>
    match engine s (tgt.headD []) opts with
    | .error f => (.error f, 1)
    | .ok r =>
      match TranslatorPool.runWorkers engine opts rest (tgt.drop 1) with
      | (.error f, n) => (.error f, n + 1)
      | (.ok rs, n) => (.ok (r :: rs), n + 1)

/-- Modelled from the spec: `ctranslate2::TranslatorPool::post` followed by
`.get()` on the returned future (spec section 4.1, contract of `submit`).
A target-prefix vector that is present (non-empty, since the binding turns an
absent prefix into an empty vector) must have the source length, otherwise the
request fails with `InvalidArgument` before any worker is touched; the spec
names no message for this error.  Otherwise the batch is run in order.  The
second component counts worker invocations. -/
def TranslatorPool.post (engine : Engine) (source tgt : List (List String))
    (opts : TranslationOptions) : Except TErr (List TranslationResult) × Nat :=
  if tgt.length ≠ 0 ∧ tgt.length ≠ source.length then
    (.error (.invalidArgument "target prefix size mismatch"), 0)
  else
    TranslatorPool.runWorkers engine opts source tgt

/-- One recorded call to `_translator_pool.post` with the converted source,
converted target-prefix (`tgt`) and the options object passed to it. -/
structure PoolCall where
  source : List (List String)
  tgt : List (List String)
  options : TranslationOptions

/-- Outcome of one `translate_batch` call: the returned value or raised error,
the list of pool posts performed, and the number of worker invocations. -/
structure BatchOutcome where
  result : Except TErr (List (List PyHyp))
  poolCalls : List PoolCall
  engineRuns : Nat

/-- The options object built inside `translate_batch` (translator.cc): a
default-constructed `TranslationOptions` with exactly the listed fields
assigned from the arguments. -/
def batchOptions (mbs bs nh : Nat) (lp : Rat) (mdl mnl : Nat)
    (uv ra rav : Bool) (stk : Nat) (st : Rat) : TranslationOptions :=
  { TranslationOptions.default with
    max_batch_size := mbs
    beam_size := bs
    length_penalty := lp
    sampling_topk := stk
    sampling_temperature := st
    max_decoding_length := mdl
    min_decoding_length := mnl
    num_hypotheses := nh
    use_vmap := uv
    return_attention := ra
    return_alternatives := rav }

/-- `TranslatorWrapper::translate_batch` (translator.cc).  Arguments in source
order: source, target prefix (`tgt`), `max_batch_size` (`mbs`), `beam_size`
(`bs`), `num_hypotheses` (`nh`), `length_penalty` (`lp`),
`max_decoding_length` (`mdl`), `min_decoding_length` (`mnl`), `use_vmap`
(`uv`), `return_attention` (`ra`), `return_alternatives` (`rav`),
`sampling_topk` (`stk`), `sampling_temperature` (`st`).
A `None` or empty source returns an empty list at once; then the source and
target-prefix lists are converted (source strictly, prefix with
`optional=true`), the options are built, the pool is posted, and on success
each result is converted to its list of hypothesis dicts, in pool order. -/
def translate_batch (engine : Engine)
    (source tgt : Option (List (Option (List String))))
    (mbs bs nh : Nat) (lp : Rat) (mdl mnl : Nat) (uv ra rav : Bool)
    (stk : Nat) (st : Rat) : BatchOutcome :=
  match source with
  | none => ⟨.ok [], [], 0⟩
  | some srcList =>
    if srcList.length = 0 then ⟨.ok [], [], 0⟩
    else
      match batch_to_vector (some srcList) false with
      | .error e => ⟨.error e, [], 0⟩
      | .ok source_input =>
        match batch_to_vector tgt true with
        | .error e => ⟨.error e, [], 0⟩
        | .ok tgt_input =>
          match TranslatorPool.post engine source_input tgt_input
              (batchOptions mbs bs nh lp mdl mnl uv ra rav stk st) with
          | (.error f, n) =>
            ⟨.error f, [⟨source_input, tgt_input,
              batchOptions mbs bs nh lp mdl mnl uv ra rav stk st⟩], n⟩
          | (.ok results, n) =>
            ⟨.ok (results.map result_to_py_list), [⟨source_input, tgt_input,
              batchOptions mbs bs nh lp mdl mnl uv ra rav stk st⟩], n⟩

/-- One recorded call to `_translator_pool.consume_text_file` with the batch
size used for reading, the options object and the `with_scores` flag. -/
structure FileCall where
  read_batch_size : Nat
  options : TranslationOptions
  with_scores : Bool

/-- Outcome of one `translate_file` call: the returned Python value or raised
error, and the list of consume calls performed. -/
structure FileOutcome where
  ret : Except TErr PyValue
  fileCalls : List FileCall

/-- The options object built inside `translate_file` (translator.cc): a
default-constructed `TranslationOptions` with exactly the listed fields
assigned from the arguments; `return_attention` and `return_alternatives` are
not assigned. -/
def fileOptions (mbs bs nh : Nat) (lp : Rat) (mdl mnl : Nat)
    (uv : Bool) (stk : Nat) (st : Rat) : TranslationOptions :=
  { TranslationOptions.default with
    max_batch_size := mbs
    beam_size := bs
    length_penalty := lp
    sampling_topk := stk
    sampling_temperature := st
    max_decoding_length := mdl
    min_decoding_length := mnl
    num_hypotheses := nh
    use_vmap := uv }

/-- Number of lines read for the next batch: up to `rbs` when `rbs` is
nonzero; a batch size of zero means no explicit cap (spec section 3), so the
whole remaining input (`n` lines) forms one batch. -/
def readSize (rbs n : Nat) : Nat :=
  if rbs = 0 then n else rbs

theorem readSize_pos (rbs n : Nat) (h : 0 < n) : 0 < readSize rbs n := by
  unfold readSize
  split <;> omega

/-- Modelled from the spec: `ctranslate2::TranslatorPool::consume_text_file`
(spec section 4.4) is not under the repository sources.  File I/O is replaced
by the list of input lines (one tokenized sequence per line); output writing
is not modelled since no claim concerns the written text.  Per iteration up to
`rbs` lines are read, formed into a batch and submitted to the pool (with no
target prefix); a fault aborts the whole operation, otherwise the batch's
source-token count is accumulated and the loop continues until end of input.
The final partial batch is processed like any other. -/
def consume_text_file (engine : Engine) (lines : List (List String))
    (rbs : Nat) (opts : TranslationOptions) (ws : Bool) : Except TErr Nat :=
  match lines with
  | [] => .ok 0
  | x :: xs =>
    match TranslatorPool.post engine
        ((x :: xs).take (readSize rbs (xs.length + 1))) [] opts with
    | (.error f, _) => .error f
    | (.ok _, _) =>
      match consume_text_file engine
          ((x :: xs).drop (readSize rbs (xs.length + 1))) rbs opts ws with
      | .error f => .error f
      | .ok n =>
        .ok ((((x :: xs).take (readSize rbs (xs.length + 1))).map
          List.length).sum + n)
termination_by lines.length
decreasing_by
  simp only [List.length_drop]
  have h1 : 0 < readSize rbs (xs.length + 1) := readSize_pos rbs _ (by omega)
  simp only [List.length_cons]
  omega

/-- `TranslatorWrapper::translate_file` (translator.cc).  Arguments in source
order, with the input file replaced by its content `lines` (the output path is
omitted; nothing observable depends on it): `max_batch_size` (`mbs`),
`read_batch_size` (`rbs`), `beam_size` (`bs`), `num_hypotheses` (`nh`),
`length_penalty` (`lp`), `max_decoding_length` (`mdl`),
`min_decoding_length` (`mnl`), `use_vmap` (`uv`), `with_scores` (`ws`),
`sampling_topk` (`stk`), `sampling_temperature` (`st`).
The options are built, a zero `read_batch_size` is replaced by
`max_batch_size`, the pool consumes the file, and the token count is returned
wrapped in a one-element tuple (`py::make_tuple(num_tokens)`). -/
def translate_file (engine : Engine) (lines : List (List String))
    (mbs rbs bs nh : Nat) (lp : Rat) (mdl mnl : Nat) (uv ws : Bool)
    (stk : Nat) (st : Rat) : FileOutcome :=
  match consume_text_file engine lines (if rbs = 0 then mbs else rbs)
      (fileOptions mbs bs nh lp mdl mnl uv stk st) ws with
  | .error f =>
    ⟨.error f, [⟨if rbs = 0 then mbs else rbs,
      fileOptions mbs bs nh lp mdl mnl uv stk st, ws⟩]⟩
  | .ok n =>
    ⟨.ok (.tuple [n]), [⟨if rbs = 0 then mbs else rbs,
      fileOptions mbs bs nh lp mdl mnl uv stk st, ws⟩]⟩

/-- The converted target-prefix vector as a function: an absent list gives an
empty vector, a present list maps `None` entries to empty sequences. -/
def prefix_input (tgt : Option (List (Option (List String)))) :
    List (List String) :=
  match tgt with
  | none => []
  | some xs => xs.map (fun o => o.getD [])

theorem vector_of_list_optional (xs : List (Option (List String))) :
    vector_of_list true xs = .ok (xs.map (fun o => o.getD [])) := by
  induction xs with
  | nil => rfl
  | cons x rest ih =>
    cases x <;> simp [vector_of_list, ih, Option.getD]

theorem batch_to_vector_optional_eq (tgt : Option (List (Option (List String)))) :
    batch_to_vector tgt true = .ok (prefix_input tgt) := by
  cases tgt with
  | none => rfl
  | some xs => simp [batch_to_vector, prefix_input, vector_of_list_optional]

theorem vector_of_list_strict_ok (xs : List (Option (List String)))
    (v : List (List String)) (h : vector_of_list false xs = .ok v) :
    v = xs.map (fun o => o.getD []) := by
  induction xs generalizing v with
  | nil =>
    simp [vector_of_list] at h
    simp [h.symm]
  | cons x rest ih =>
    cases x with
    | none => simp [vector_of_list] at h
    | some s =>
      simp only [vector_of_list] at h
      cases hr : vector_of_list false rest with
      | error e => rw [hr] at h; exact absurd h (by simp)
      | ok w =>
        rw [hr] at h
        simp only [Except.ok.injEq] at h
        simp [h.symm, ih w hr, Option.getD]

theorem vector_of_list_strict_none_mem (xs : List (Option (List String)))
    (h : none ∈ xs) :
    vector_of_list false xs =
      .error (.invalidArgument "Invalid None value in input list") := by
  induction xs with
  | nil => cases h
  | cons x rest ih =>
    cases x with
    | none => rfl
    | some s =>
      have hrest : none ∈ rest := by
        cases h with
        | tail _ h2 => exact h2
      simp [vector_of_list, ih hrest]

theorem vector_of_list_error_shape (b : Bool) (xs : List (Option (List String))) :
    ∀ e : TErr, vector_of_list b xs = .error e →
      e = .invalidArgument "Invalid None value in input list" := by
  induction xs with
  | nil => intro e h; simp [vector_of_list] at h
  | cons x rest ih =>
    intro e h
    cases x with
    | none =>
      by_cases hb : b = true
      · subst hb
        rw [vector_of_list_optional] at h
        exact absurd h (by simp)
      · have hb2 : b = false := by revert hb; cases b <;> simp
        subst hb2
        have hunf : vector_of_list false (none :: rest) =
            .error (.invalidArgument "Invalid None value in input list") := rfl
        rw [hunf] at h
        injection h with h4
        exact h4.symm
    | some s =>
      simp only [vector_of_list] at h
      cases hr : vector_of_list b rest with
      | error e2 =>
        rw [hr] at h
        simp only [Except.error.injEq] at h
        exact h ▸ ih e2 hr
      | ok w => rw [hr] at h; simp at h

/-- The spec-modelled pool loop, on success, returns exactly one result per
input sequence, in input order, each produced by the engine on that sequence
and its target-prefix slice. -/
theorem runWorkers_ok (engine : Engine) (opts : TranslationOptions) :
    ∀ (src tgt : List (List String)) (rs : List TranslationResult) (n : Nat),
      TranslatorPool.runWorkers engine opts src tgt = (.ok rs, n) →
      rs.length = src.length ∧
      ∀ i, i < src.length →
        engine (src.getD i []) (tgt.getD i []) opts =
          .ok (rs.getD i ⟨[], [], []⟩) := by
  intro src
  induction src with
  | nil =>
    intro tgt rs n h
    simp only [TranslatorPool.runWorkers] at h
    injection h with h1 h2
    injection h1 with h3
    subst h3
    exact ⟨rfl, fun i hi => absurd hi (by simp)⟩
  | cons x rest ih =>
    intro tgt rs n h
    simp only [TranslatorPool.runWorkers] at h
    cases he : engine x (tgt.headD []) opts with
    | error f => rw [he] at h; simp at h
    | ok r =>
      rw [he] at h
      cases hr : TranslatorPool.runWorkers engine opts rest (tgt.drop 1) with
      | mk res m =>
        rw [hr] at h
        cases res with
        | error f => simp at h
        | ok rs2 =>
          injection h with h1 h2
          injection h1 with h3
          subst h3
          obtain ⟨hlen, hpt⟩ := ih (tgt.drop 1) rs2 m hr
          refine ⟨by simp [hlen], ?_⟩
          intro i hi
          cases i with
          | zero =>
            cases tgt with
            | nil => simpa using he
            | cons t ts => simpa using he
          | succ j =>
            have hj : j < rest.length := by simpa using hi
            have hx := hpt j hj
            cases tgt with
            | nil => simpa using hx
            | cons t ts => simpa using hx

/-- The spec-modelled streaming consumer, when it completes, returns the sum
of the token counts of all input lines, accumulated batch by batch. -/
theorem consume_ok_sum (engine : Engine) (rbs : Nat)
    (opts : TranslationOptions) (ws : Bool) :
    ∀ (lines : List (List String)) (n : Nat),
      consume_text_file engine lines rbs opts ws = .ok n →
      n = (lines.map List.length).sum := by
  have main : ∀ (m : Nat) (lines : List (List String)), lines.length ≤ m →
      ∀ n, consume_text_file engine lines rbs opts ws = .ok n →
        n = (lines.map List.length).sum := by
    intro m
    induction m with
    | zero =>
      intro lines hl n h
      have hnil : lines = [] := List.length_eq_zero.mp (Nat.le_zero.mp hl)
      subst hnil
      rw [consume_text_file] at h
      injection h with h1
      simp [← h1]
    | succ m ih =>
      intro lines hl n h
      cases lines with
      | nil =>
        rw [consume_text_file] at h
        injection h with h1
        simp [← h1]
      | cons x xs =>
        rw [consume_text_file] at h
        cases hp : TranslatorPool.post engine
            ((x :: xs).take (readSize rbs (xs.length + 1))) [] opts with
        | mk res cnt =>
          rw [hp] at h
          cases res with
          | error f => simp at h
          | ok rs =>
            cases hc : consume_text_file engine
                ((x :: xs).drop (readSize rbs (xs.length + 1))) rbs opts ws with
            | error f => rw [hc] at h; simp at h
            | ok n2 =>
              rw [hc] at h
              injection h with h1
              have hlen : ((x :: xs).drop (readSize rbs (xs.length + 1))).length ≤ m := by
                have hk : 0 < readSize rbs (xs.length + 1) :=
                  readSize_pos rbs _ (by omega)
                simp only [List.length_drop, List.length_cons]
                simp only [List.length_cons] at hl
                omega
              have h2 := ih _ hlen n2 hc
              subst h2
              rw [← h1]
              conv_rhs =>
                rw [← List.take_append_drop (readSize rbs (xs.length + 1)) (x :: xs)]
              rw [List.map_append, List.sum_append]
  intro lines n h
  exact main lines.length lines (Nat.le_refl _) n h

theorem vector_of_list_strict_total (xs : List (Option (List String)))
    (h : none ∉ xs) :
    vector_of_list false xs = .ok (xs.map (fun o => o.getD [])) := by
  induction xs with
  | nil => rfl
  | cons x rest ih =>
    cases x with
    | none => exact absurd (List.mem_cons_self _ _) h
    | some s =>
      have hrest : none ∉ rest := fun hm => h (List.mem_cons_of_mem _ hm)
      simp [vector_of_list, ih hrest, Option.getD]

theorem getD_map_option (src : List (Option (List String))) (i : Nat) :
    (src.map (fun o => o.getD [])).getD i [] = (src.getD i none).getD [] := by
  induction src generalizing i with
  | nil => rfl
  | cons x rest ih =>
    cases i with
    | zero => rfl
    | succ j => simpa using ih j

theorem getD_map_result (rs : List TranslationResult) (i : Nat) :
    (rs.map result_to_py_list).getD i [] =
      result_to_py_list (rs.getD i ⟨[], [], []⟩) := by
  induction rs generalizing i with
  | nil => rfl
  | cons x rest ih =>
    cases i with
    | zero => rfl
    | succ j => simpa using ih j

/-- Reduction of `translate_batch` on a non-empty, well-formed source: the
conversions succeed and the outcome is determined by the pool post. -/
theorem translate_batch_nonempty (engine : Engine)
    (src : List (Option (List String)))
    (tgt : Option (List (Option (List String))))
    (mbs bs nh : Nat) (lp : Rat) (mdl mnl : Nat) (uv ra rav : Bool)
    (stk : Nat) (st : Rat) (hne : ¬ src.length = 0) (hmem : none ∉ src) :
    translate_batch engine (some src) tgt mbs bs nh lp mdl mnl uv ra rav stk st =
      (match TranslatorPool.post engine (src.map (fun o => o.getD []))
          (prefix_input tgt) (batchOptions mbs bs nh lp mdl mnl uv ra rav stk st) with
      | (.error f, n) =>
        ⟨.error f, [⟨src.map (fun o => o.getD []), prefix_input tgt,
          batchOptions mbs bs nh lp mdl mnl uv ra rav stk st⟩], n⟩
      | (.ok results, n) =>
        ⟨.ok (results.map result_to_py_list), [⟨src.map (fun o => o.getD []),
          prefix_input tgt,
          batchOptions mbs bs nh lp mdl mnl uv ra rav stk st⟩], n⟩) := by
  simp only [translate_batch]
  rw [if_neg hne]
  rw [show batch_to_vector (some src) false =
        .ok (src.map (fun o => o.getD [])) from vector_of_list_strict_total src hmem]
  rw [batch_to_vector_optional_eq]

/-- Reduction of `translate_batch` on a non-empty source containing a `None`
entry: the strict source conversion throws and nothing is dispatched. -/
theorem translate_batch_none_entry (engine : Engine)
    (src : List (Option (List String)))
    (tgt : Option (List (Option (List String))))
    (mbs bs nh : Nat) (lp : Rat) (mdl mnl : Nat) (uv ra rav : Bool)
    (stk : Nat) (st : Rat) (hne : ¬ src.length = 0) (hmem : none ∈ src) :
    translate_batch engine (some src) tgt mbs bs nh lp mdl mnl uv ra rav stk st =
      ⟨.error (.invalidArgument "Invalid None value in input list"), [], 0⟩ := by
  simp only [translate_batch]
  rw [if_neg hne]
  rw [show batch_to_vector (some src) false =
        .error (.invalidArgument "Invalid None value in input list") from
    vector_of_list_strict_none_mem src hmem]

/-- A concrete total engine used in witnesses and counterexamples: one
hypothesis echoing the source sequence, score 0, no attention. -/
def E0 : Engine := fun s _ _ => .ok ⟨[s], [0], []⟩

/-- C2: for every call to `translate_batch` whose source argument is `None`
or an empty list, the function returns an empty result list, posts nothing to
the translator pool, and invokes no worker. -/
theorem translate_batch_empty_source_no_dispatch (engine : Engine)
    (tgt : Option (List (Option (List String))))
    (mbs bs nh : Nat) (lp : Rat) (mdl mnl : Nat) (uv ra rav : Bool)
    (stk : Nat) (st : Rat) :
    translate_batch engine none tgt mbs bs nh lp mdl mnl uv ra rav stk st =
      ⟨.ok [], [], 0⟩ ∧
    translate_batch engine (some []) tgt mbs bs nh lp mdl mnl uv ra rav stk st =
      ⟨.ok [], [], 0⟩ :=
  ⟨rfl, rfl⟩

/-- C9: with an empty or `None` source, `translate_batch` returns the empty
result list before any validation of the `target_prefix` argument, so no
target-prefix value (malformed shape, wrong length, or `None` entries) can
make the call raise: the result is `ok []` for every `tgt`. -/
theorem translate_batch_empty_source_skips_validation (engine : Engine)
    (tgt : Option (List (Option (List String))))
    (mbs bs nh : Nat) (lp : Rat) (mdl mnl : Nat) (uv ra rav : Bool)
    (stk : Nat) (st : Rat) :
    (translate_batch engine none tgt mbs bs nh lp mdl mnl uv ra rav stk st).result =
      .ok [] ∧
    (translate_batch engine (some []) tgt mbs bs nh lp mdl mnl uv ra rav stk st).result =
      .ok [] :=
  ⟨rfl, rfl⟩

/-- C4: the optional conversion used for the `target_prefix` argument
(`batch_to_vector(target_prefix, optional=true)` in `translate_batch`) never
raises; it converts each `None` entry to an empty sequence and keeps every
other entry. -/
theorem batch_to_vector_optional_none_to_empty (xs : List (Option (List String))) :
    batch_to_vector (some xs) true = .ok (xs.map (fun o => o.getD [])) := by
  simpa [batch_to_vector] using vector_of_list_optional xs

/-- C8: a `None` entry in the source list makes `translate_batch` raise an
invalid-argument error with message "Invalid None value in input list"
(the strict conversion of the source rejects `None`, unlike the optional
conversion of the target prefix). -/
theorem translate_batch_rejects_none_in_source (engine : Engine)
    (src : List (Option (List String)))
    (tgt : Option (List (Option (List String))))
    (mbs bs nh : Nat) (lp : Rat) (mdl mnl : Nat) (uv ra rav : Bool)
    (stk : Nat) (st : Rat) (h : none ∈ src) :
    (translate_batch engine (some src) tgt mbs bs nh lp mdl mnl uv ra rav stk st).result =
      .error (.invalidArgument "Invalid None value in input list") := by
  have hne : ¬ src.length = 0 := by
    cases src with
    | nil => cases h
    | cons a l => simp
  rw [translate_batch_none_entry engine src tgt mbs bs nh lp mdl mnl uv ra rav
    stk st hne h]

/-- Witness for C8 at the concrete source `[None]`. -/
theorem translate_batch_rejects_none_in_source_witness :
    (none ∈ ([none] : List (Option (List String)))) ∧
    (translate_batch E0 (some [none]) none 0 2 1 0 250 1 false false false
        1 1).result =
      .error (.invalidArgument "Invalid None value in input list") :=
  ⟨by simp, translate_batch_rejects_none_in_source E0 [none] none 0 2 1 0 250 1
    false false false 1 1 (by simp)⟩

/-- C6: `translate_file` reads with batch size `max_batch_size` when
`read_batch_size` is zero (unspecified), and with `read_batch_size` itself
otherwise; that size is what the single consume call receives. -/
theorem translate_file_read_batch_size_default (engine : Engine)
    (lines : List (List String)) (mbs rbs bs nh : Nat) (lp : Rat)
    (mdl mnl : Nat) (uv ws : Bool) (stk : Nat) (st : Rat) :
    ((translate_file engine lines mbs rbs bs nh lp mdl mnl uv ws stk
        st).fileCalls.map (fun c => c.read_batch_size)) =
      [if rbs = 0 then mbs else rbs] := by
  unfold translate_file
  cases h : consume_text_file engine lines (if rbs = 0 then mbs else rbs)
      (fileOptions mbs bs nh lp mdl mnl uv stk st) ws <;> simp [h]

/-- C10: the options object passed by `translate_file` to the pool leaves
`return_attention` and `return_alternatives` at their default-constructed
values, and those defaults are `false`: file translation never requests
attention maps or alternatives, whatever the other arguments are. -/
theorem translate_file_keeps_default_attention_flags (engine : Engine)
    (lines : List (List String)) (mbs rbs bs nh : Nat) (lp : Rat)
    (mdl mnl : Nat) (uv ws : Bool) (stk : Nat) (st : Rat) :
    ((translate_file engine lines mbs rbs bs nh lp mdl mnl uv ws stk
        st).fileCalls.map
      (fun c => (c.options.return_attention, c.options.return_alternatives))) =
      [(TranslationOptions.default.return_attention,
        TranslationOptions.default.return_alternatives)] ∧
    TranslationOptions.default.return_attention = false ∧
    TranslationOptions.default.return_alternatives = false := by
  refine ⟨?_, rfl, rfl⟩
  unfold translate_file
  cases h : consume_text_file engine lines (if rbs = 0 then mbs else rbs)
      (fileOptions mbs bs nh lp mdl mnl uv stk st) ws <;>
    simp [h, fileOptions, TranslationOptions.default]

/-- C5: when `translate_batch` posts to the pool (non-empty, well-formed
source), it performs exactly one post whose options object carries every
decoding-option argument verbatim: `max_batch_size`, `beam_size`,
`length_penalty`, `sampling_topk`, `sampling_temperature`,
`max_decoding_length`, `min_decoding_length`, `num_hypotheses`, `use_vmap`,
`return_attention` and `return_alternatives` are the argument values,
unmodified. -/
theorem translate_batch_options_passthrough (engine : Engine)
    (src : List (Option (List String)))
    (tgt : Option (List (Option (List String))))
    (mbs bs nh : Nat) (lp : Rat) (mdl mnl : Nat) (uv ra rav : Bool)
    (stk : Nat) (st : Rat) (h1 : src ≠ []) (h2 : none ∉ src) :
    ∃ c : PoolCall,
      (translate_batch engine (some src) tgt mbs bs nh lp mdl mnl uv ra rav stk
        st).poolCalls = [c] ∧
      c.options.max_batch_size = mbs ∧ c.options.beam_size = bs ∧
      c.options.length_penalty = lp ∧ c.options.sampling_topk = stk ∧
      c.options.sampling_temperature = st ∧
      c.options.max_decoding_length = mdl ∧
      c.options.min_decoding_length = mnl ∧ c.options.num_hypotheses = nh ∧
      c.options.use_vmap = uv ∧ c.options.return_attention = ra ∧
      c.options.return_alternatives = rav := by
  have hne : ¬ src.length = 0 := fun h0 => h1 (List.length_eq_zero.mp h0)
  refine ⟨⟨src.map (fun o => o.getD []), prefix_input tgt,
    batchOptions mbs bs nh lp mdl mnl uv ra rav stk st⟩, ?_, rfl, rfl, rfl,
    rfl, rfl, rfl, rfl, rfl, rfl, rfl, rfl⟩
  rw [translate_batch_nonempty engine src tgt mbs bs nh lp mdl mnl uv ra rav
    stk st hne h2]
  cases hp : TranslatorPool.post engine (src.map (fun o => o.getD []))
      (prefix_input tgt) (batchOptions mbs bs nh lp mdl mnl uv ra rav stk st) with
  | mk res n => cases res <;> rfl

/-- Witness for C5 at a concrete call. -/
theorem translate_batch_options_passthrough_witness :
    ([some ["a"]] : List (Option (List String))) ≠ [] ∧
    (none ∉ ([some ["a"]] : List (Option (List String)))) ∧
    ∃ c : PoolCall,
      (translate_batch E0 (some [some ["a"]]) none 7 5 3 2 100 4 true true
        true 6 9).poolCalls = [c] ∧
      c.options.max_batch_size = 7 ∧ c.options.beam_size = 5 ∧
      c.options.length_penalty = 2 ∧ c.options.sampling_topk = 6 ∧
      c.options.sampling_temperature = 9 ∧
      c.options.max_decoding_length = 100 ∧
      c.options.min_decoding_length = 4 ∧ c.options.num_hypotheses = 3 ∧
      c.options.use_vmap = true ∧ c.options.return_attention = true ∧
      c.options.return_alternatives = true :=
  ⟨by simp, by simp, translate_batch_options_passthrough E0 [some ["a"]] none
    7 5 3 2 100 4 true true true 6 9 (by simp) (by simp)⟩

/-- C3 counterexample: a present but empty `target_prefix` list whose length
(0) differs from the source length (1) does not make the call fail: the
binding converts the empty Python list to the same empty vector as an absent
prefix, so the pool treats it as "no prefix" and translation proceeds
normally. -/
theorem translate_batch_present_empty_tgt_counterexample :
    (translate_batch E0 (some [some ["a"]]) (some []) 0 2 1 0 250 1 false
        false false 1 1).result =
      .ok [[⟨0, ["a"], none⟩]] ∧
    ∀ e, (translate_batch E0 (some [some ["a"]]) (some []) 0 2 1 0 250 1 false
        false false 1 1).result ≠ .error e := by
  constructor
  · rfl
  · intro e h
    rw [show (translate_batch E0 (some [some ["a"]]) (some []) 0 2 1 0 250 1
        false false false 1 1).result = .ok [[⟨0, ["a"], none⟩]] from rfl] at h
    exact Except.noConfusion h

/-- C3 amended: with a non-empty source and a present, NON-EMPTY
`target_prefix` whose length differs from the source length, `translate_batch`
fails with an invalid-argument error and no worker is ever invoked (either the
strict source conversion throws first, or the pool rejects the length mismatch
before dispatch). -/
theorem translate_batch_tgt_length_mismatch_fail_fast (engine : Engine)
    (src tpl : List (Option (List String)))
    (mbs bs nh : Nat) (lp : Rat) (mdl mnl : Nat) (uv ra rav : Bool)
    (stk : Nat) (st : Rat)
    (h1 : src ≠ []) (h2 : tpl ≠ []) (h3 : tpl.length ≠ src.length) :
    (∃ msg, (translate_batch engine (some src) (some tpl) mbs bs nh lp mdl mnl
        uv ra rav stk st).result = .error (.invalidArgument msg)) ∧
    (translate_batch engine (some src) (some tpl) mbs bs nh lp mdl mnl uv ra
      rav stk st).engineRuns = 0 := by
  have hne : ¬ src.length = 0 := fun h0 => h1 (List.length_eq_zero.mp h0)
  by_cases hmem : none ∈ src
  · rw [translate_batch_none_entry engine src (some tpl) mbs bs nh lp mdl mnl
      uv ra rav stk st hne hmem]
    exact ⟨⟨"Invalid None value in input list", rfl⟩, rfl⟩
  · rw [translate_batch_nonempty engine src (some tpl) mbs bs nh lp mdl mnl uv
      ra rav stk st hne hmem]
    have hpost : TranslatorPool.post engine (src.map (fun o => o.getD []))
        (prefix_input (some tpl))
        (batchOptions mbs bs nh lp mdl mnl uv ra rav stk st) =
        (.error (.invalidArgument "target prefix size mismatch"), 0) := by
      unfold TranslatorPool.post
      rw [if_pos]
      refine ⟨?_, ?_⟩
      · simpa [prefix_input] using fun h0 => h2 (List.length_eq_zero.mp h0)
      · simpa [prefix_input] using h3
    rw [hpost]
    exact ⟨⟨"target prefix size mismatch", rfl⟩, rfl⟩

/-- Witness for the amended C3 at a concrete mismatched call (source length 1,
target-prefix length 2). -/
theorem translate_batch_tgt_length_mismatch_fail_fast_witness :
    ([some ["a"]] : List (Option (List String))) ≠ [] ∧
    ([some ["x"], none] : List (Option (List String))) ≠ [] ∧
    ([some ["x"], none] : List (Option (List String))).length ≠
      ([some ["a"]] : List (Option (List String))).length ∧
    ((∃ msg, (translate_batch E0 (some [some ["a"]]) (some [some ["x"], none])
        0 2 1 0 250 1 false false false 1 1).result =
        .error (.invalidArgument msg)) ∧
      (translate_batch E0 (some [some ["a"]]) (some [some ["x"], none]) 0 2 1 0
        250 1 false false false 1 1).engineRuns = 0) :=
  ⟨by simp, by simp, by simp, translate_batch_tgt_length_mismatch_fail_fast E0
    [some ["a"]] [some ["x"], none] 0 2 1 0 250 1 false false false 1 1
    (by simp) (by simp) (by simp)⟩

/-- C1: for every non-empty source batch, `translate_batch` either raises (the
`result` is a single error and no partial list exists) or returns a complete
result list of the source's length whose i-th element is the converted
`TranslationResult` the engine produced for the i-th source sequence and its
target-prefix slice, in input order. -/
theorem translate_batch_complete_ordered (engine : Engine)
    (src : List (Option (List String)))
    (tgt : Option (List (Option (List String))))
    (mbs bs nh : Nat) (lp : Rat) (mdl mnl : Nat) (uv ra rav : Bool)
    (stk : Nat) (st : Rat) (h1 : src ≠ []) :
    (∃ e, (translate_batch engine (some src) tgt mbs bs nh lp mdl mnl uv ra rav
      stk st).result = .error e) ∨
    (∃ l, (translate_batch engine (some src) tgt mbs bs nh lp mdl mnl uv ra rav
        stk st).result = .ok l ∧
      l.length = src.length ∧
      ∀ i, i < src.length →
        ∃ r, engine ((src.getD i none).getD []) ((prefix_input tgt).getD i [])
            (batchOptions mbs bs nh lp mdl mnl uv ra rav stk st) = .ok r ∧
          l.getD i [] = result_to_py_list r) := by
  have hne : ¬ src.length = 0 := fun h0 => h1 (List.length_eq_zero.mp h0)
  by_cases hmem : none ∈ src
  · left
    refine ⟨.invalidArgument "Invalid None value in input list", ?_⟩
    rw [translate_batch_none_entry engine src tgt mbs bs nh lp mdl mnl uv ra
      rav stk st hne hmem]
  · rw [translate_batch_nonempty engine src tgt mbs bs nh lp mdl mnl uv ra rav
      stk st hne hmem]
    cases hp : TranslatorPool.post engine (src.map (fun o => o.getD []))
        (prefix_input tgt)
        (batchOptions mbs bs nh lp mdl mnl uv ra rav stk st) with
    | mk res n =>
      cases res with
      | error f => left; exact ⟨f, rfl⟩
      | ok rs =>
        right
        have hrun : TranslatorPool.runWorkers engine
            (batchOptions mbs bs nh lp mdl mnl uv ra rav stk st)
            (src.map (fun o => o.getD [])) (prefix_input tgt) = (.ok rs, n) := by
          unfold TranslatorPool.post at hp
          by_cases hc : (prefix_input tgt).length ≠ 0 ∧
              (prefix_input tgt).length ≠ (src.map (fun o => o.getD [])).length
          · rw [if_pos hc] at hp; exact absurd hp (by simp)
          · rwa [if_neg hc] at hp
        obtain ⟨hlen, hpt⟩ := runWorkers_ok engine
          (batchOptions mbs bs nh lp mdl mnl uv ra rav stk st)
          (src.map (fun o => o.getD [])) (prefix_input tgt) rs n hrun
        refine ⟨rs.map result_to_py_list, rfl, ?_, ?_⟩
        · simpa using hlen
        · intro i hi
          refine ⟨rs.getD i ⟨[], [], []⟩, ?_, getD_map_result rs i⟩
          have hi2 : i < (src.map (fun o => o.getD [])).length := by simpa using hi
          have hx := hpt i hi2
          rwa [getD_map_option] at hx

/-- Witness for C1 at a concrete two-sequence batch with the total engine
`E0`: the result branch of the disjunction holds. -/
theorem translate_batch_complete_ordered_witness :
    ([some ["hello"], some ["world"]] : List (Option (List String))) ≠ [] ∧
    ((∃ e, (translate_batch E0 (some [some ["hello"], some ["world"]]) none 0 2
      1 0 250 1 false false false 1 1).result = .error e) ∨
    (∃ l, (translate_batch E0 (some [some ["hello"], some ["world"]]) none 0 2
        1 0 250 1 false false false 1 1).result = .ok l ∧
      l.length = ([some ["hello"], some ["world"]] :
        List (Option (List String))).length ∧
      ∀ i, i < ([some ["hello"], some ["world"]] :
          List (Option (List String))).length →
        ∃ r, E0 ((([some ["hello"], some ["world"]] :
              List (Option (List String))).getD i none).getD [])
            ((prefix_input none).getD i [])
            (batchOptions 0 2 1 0 250 1 false false false 1 1) = .ok r ∧
          l.getD i [] = result_to_py_list r)) :=
  ⟨by simp, translate_batch_complete_ordered E0
    [some ["hello"], some ["world"]] none 0 2 1 0 250 1 false false false 1 1
    (by simp)⟩

/-- C7 counterexample: the return value of `translate_file` is not the token
count itself but a one-element tuple containing it
(`return py::make_tuple(num_tokens);`): on a two-line input with three source
tokens the call returns the tuple `(3,)`, not the integer `3`. -/
theorem translate_file_returns_tuple_counterexample :
    (translate_file E0 [["a", "b"], ["c"]] 4 0 2 1 0 250 1 false false 1
        1).ret = .ok (.tuple [3]) ∧
    (translate_file E0 [["a", "b"], ["c"]] 4 0 2 1 0 250 1 false false 1
        1).ret ≠ .ok (.int 3) := by
  have hc : consume_text_file E0 [["a", "b"], ["c"]] 4
      (fileOptions 4 2 1 0 250 1 false 1 1) false = .ok 3 := by
    rw [consume_text_file]
    simp [readSize, TranslatorPool.post, TranslatorPool.runWorkers, E0,
      consume_text_file]
  constructor
  · unfold translate_file
    simp [hc]
  · unfold translate_file
    simp [hc]

/-- C7 amended: `translate_file` either raises, or returns a one-element tuple
whose entry is the total number of source tokens processed, accumulated across
all batches (equal to the token count of the whole input). -/
theorem translate_file_total_token_count (engine : Engine)
    (lines : List (List String)) (mbs rbs bs nh : Nat) (lp : Rat)
    (mdl mnl : Nat) (uv ws : Bool) (stk : Nat) (st : Rat) :
    (∃ f, (translate_file engine lines mbs rbs bs nh lp mdl mnl uv ws stk
      st).ret = .error f) ∨
    (translate_file engine lines mbs rbs bs nh lp mdl mnl uv ws stk st).ret =
      .ok (.tuple [(lines.map List.length).sum]) := by
  unfold translate_file
  cases h : consume_text_file engine lines (if rbs = 0 then mbs else rbs)
      (fileOptions mbs bs nh lp mdl mnl uv stk st) ws with
  | error f => left; exact ⟨f, by simp [h]⟩
  | ok n =>
    right
    have hsum := consume_ok_sum engine (if rbs = 0 then mbs else rbs)
      (fileOptions mbs bs nh lp mdl mnl uv stk st) ws lines n h
    simp [h, hsum]
